import Mathlib

/-!
Shallow embedding of `src/os.cpp` (minimal OS abstraction layer: process
runner, path splitter, file writer) and proofs about it.

Bytes are modelled as `Nat`, byte buffers (the `Buf` type of the missing
`buffer.hpp`, per the spec a growable byte buffer) as `List Nat` or
`List Char`; file descriptors as `Nat`.  Fatal `zig_panic` terminations
are modelled as `Except.error` results; OS primitives whose success is
decided by the environment (pipe, fork, dup2, execvp, open, write, close,
and the byte counts returned by `read`) are parameterized by explicit
oracle values.
-/

set_option autoImplicit false

namespace ZigOs

/-- Modelled from the spec: `buf_resize` of the growable byte buffer
(`buffer.hpp` is not among the sources; spec section 3 describes the
buffers).  Resizing truncates the buffer to `n` bytes or extends it to
`n` bytes; bytes beyond the old length are uninitialized in the C and
are modelled as `0`. -/
def bufResize (b : List Nat) (n : Nat) : List Nat :=
  b.take n ++ List.replicate (n - b.length) 0

/-- One non-final iteration of the loop of `read_all_fd` (os.cpp:44-55):
the `read` returned the nonempty `chunk`, which the code stores at the
START of the buffer (`read(fd, buf_ptr(out_buf), buf_len(out_buf))` -
no offset), adds its length to `actual_buf_len`, and resizes the buffer
to `actual_buf_len + buf_size` where `buf_size = 8192`.  Returns the new
buffer and the new `actual_buf_len`. -/
def drainIter (buf : List Nat) (actual : Nat) (chunk : List Nat) :
    List Nat × Nat :=
  (bufResize (chunk ++ buf.drop chunk.length) (actual + chunk.length + 8192),
   actual + chunk.length)

/-- The loop of `read_all_fd` (os.cpp:44-55), parameterized by the chunks
the successive `read` calls return (POSIX `read` may return any number of
pending bytes between 1 and the requested length; the list ending, or an
empty chunk, models the zero-length end-of-stream read).  On end-of-stream
the code resizes the buffer down to `actual_buf_len` and returns it. -/
def readAllFdChunks : List (List Nat) → List Nat → Nat → List Nat
  | [], buf, actual => bufResize buf actual
  | chunk :: rest, buf, actual =>
    if chunk.length = 0 then bufResize buf actual
    else readAllFdChunks rest (drainIter buf actual chunk).1
      (drainIter buf actual chunk).2

/-- `read_all_fd` (os.cpp:40-56): resize the buffer to the fixed initial
chunk size `buf_size = 8192`, then run the read loop. -/
def read_all_fd (chunks : List (List Nat)) : List Nat :=
  readAllFdChunks chunks (bufResize [] 8192) 0

/-- A chunk sequence is a possible sequence of `read` results for
`read_all_fd`: each read returns at most the byte count it was asked for,
which is the current buffer length (`actual + 8192` at every loop entry),
and a zero-length chunk ends the sequence. -/
def chunksValid : Nat → List (List Nat) → Bool
  | _, [] => true
  | actual, chunk :: rest =>
    decide (chunk.length ≤ actual + 8192) &&
      (chunk.length == 0 || chunksValid (actual + chunk.length) rest)

/-- The starting index of the backward separator scan of `os_path_split`
(os.cpp:59-62): `last_index` is the last index of the path, moved one to
the left when the last byte is `'/'`; `none` models `last_index < 0`
(the scan loop body never runs). -/
def sepScanStart (p : List Char) : Option Nat :=
  if p.length = 0 then none
  else if p.get? (p.length - 1) = some '/' then
    (if p.length - 1 = 0 then none else some (p.length - 2))
  else some (p.length - 1)

/-- The backward scan of `os_path_split` (os.cpp:63-70): the greatest
index `i ≤ k` with `p[i] = '/'`, if any. -/
def findLastSep (p : List Char) : Nat → Option Nat
  | 0 => if p.get? 0 = some '/' then some 0 else none
  | k + 1 =>
    if p.get? (k + 1) = some '/' then some (k + 1) else findLastSep p k

/-- `os_path_split` (os.cpp:58-73).  When a separator is found at index
`i`, the dirname is the first `i` bytes and the basename the bytes from
`i + 1` to the ORIGINAL end of the path (`buf_len(full_path) - (i + 1)`
bytes); when no separator is found the dirname is `"."` and the basename
a copy of the whole input. -/
def os_path_split (p : List Char) : List Char × List Char :=
  match sepScanStart p with
  | none => (['.'], p)
  | some k =>
    match findLastSep p k with
    | some i => (p.take i, p.drop (i + 1))
    | none => (['.'], p)

/-- Parent-side syscall events of `os_exec_process`, for the descriptor
accounting of os.cpp:78-123. -/
inductive PEv where
  | mkpipe (r w : Nat)
  | forked
  | closed (fd : Nat)
  | waited
  | drained (fd : Nat)
deriving DecidableEq

/-- Parent-process descriptor-table state: the next free descriptor
number, the list of open descriptors, and the trace of syscall events so
far. -/
structure PState where
  nextFd : Nat
  openFds : List Nat
  trace : List PEv
deriving DecidableEq

/-- `pipe` (os.cpp:83-88): allocates a read end and a write end, both
open in the calling process. -/
def sysPipe (s : PState) : (Nat × Nat) × PState :=
  ((s.nextFd, s.nextFd + 1),
   { nextFd := s.nextFd + 2,
     openFds := s.openFds ++ [s.nextFd, s.nextFd + 1],
     trace := s.trace ++ [.mkpipe s.nextFd (s.nextFd + 1)] })

/-- `close` (os.cpp:114-116): removes the descriptor from the open set. -/
def sysClose (fd : Nat) (s : PState) : PState :=
  { s with openFds := s.openFds.erase fd, trace := s.trace ++ [.closed fd] }

/-- `fork` (os.cpp:90), parent branch: descriptors unchanged. -/
def sysFork (s : PState) : PState :=
  { s with trace := s.trace ++ [.forked] }

/-- `waitpid` (os.cpp:118): blocks; descriptors unchanged. -/
def sysWait (s : PState) : PState :=
  { s with trace := s.trace ++ [.waited] }

/-- `read_all_fd` on a pipe read end (os.cpp:120-121): reads do not close
the descriptor. -/
def sysDrain (fd : Nat) (s : PState) : PState :=
  { s with trace := s.trace ++ [.drained fd] }

/-- The parent-side descriptor behaviour of `os_exec_process`
(os.cpp:78-123), transcribed syscall by syscall: three `pipe` calls, the
fork, the three `close` calls of os.cpp:114-116 (stdin read end, stdout
write end, stderr write end), `waitpid`, and the two drains of the stdout
and stderr read ends.  No further `close` occurs before the function
returns. -/
def os_exec_process_fds (s0 : PState) : PState :=
  let r1 := sysPipe s0
  let r2 := sysPipe r1.2
  let r3 := sysPipe r2.2
  let s4 := sysFork r3.2
  let s5 := sysClose r1.1.1 s4
  let s6 := sysClose r2.1.2 s5
  let s7 := sysClose r3.1.2 s6
  let s8 := sysWait s7
  let s9 := sysDrain r2.1.1 s8
  sysDrain r3.1.1 s9

/-- Success/failure of the environment-dependent primitives called by the
parent in `os_exec_process` (os.cpp:83-92), in program order. -/
structure ExecOracle where
  pipe1Ok : Bool
  pipe2Ok : Bool
  pipe3Ok : Bool
  forkOk : Bool
deriving DecidableEq

/-- What the child process does once exec'd: its eventual exit code and
the chunk sequences its stdout and stderr writes are delivered in by the
parent's reads. -/
structure ChildBehavior where
  exitCode : Nat
  outChunks : List (List Nat)
  errChunks : List (List Nat)
deriving DecidableEq

/-- The three values `os_exec_process` hands back through its out
parameters `return_code`, `out_stdout`, `out_stderr`. -/
structure ExecResult where
  code : Nat
  out : List Nat
  err : List Nat
deriving DecidableEq

/-- Modelled from the spec: the raw OS wait-status encoding stored by
`waitpid` for a child that exits normally with code `c` (POSIX: the low
8 bits of the exit code, shifted left by 8). -/
def waitStatus (c : Nat) : Nat := 256 * (c % 256)

/-- Modelled from the spec: the standard decoding (`WEXITSTATUS`) of the
exit code out of a raw wait status. -/
def wexitstatus (s : Nat) : Nat := s / 256 % 256

/-- `os_exec_process` (os.cpp:75-124) at value level: panic
(`Except.error`) when a pipe or the fork fails, otherwise wait for the
child and drain its stdout pipe, then its stderr pipe, with
`read_all_fd`. -/
def os_exec_process (o : ExecOracle) (b : ChildBehavior) :
    Except String ExecResult :=
  if !o.pipe1Ok then .error "pipe failed"
  else if !o.pipe2Ok then .error "pipe failed"
  else if !o.pipe3Ok then .error "pipe failed"
  else if !o.forkOk then .error "fork failed"
  else .ok { code := waitStatus b.exitCode,
             out := read_all_fd b.outChunks,
             err := read_all_fd b.errChunks }

/-- All parent-side primitives succeed. -/
def allOkOracle : ExecOracle := ⟨true, true, true, true⟩

/-- Success/failure of the primitives run in the child branch of
`os_exec_process` (os.cpp:93-111): the three `dup2` redirections and the
`execvp`. -/
structure ChildOracle where
  dupStdinOk : Bool
  dupStdoutOk : Bool
  dupStderrOk : Bool
  execOk : Bool
deriving DecidableEq

/-- The only way the child branch ends other than a panic: the process
image is replaced by the target executable (exec does not return). -/
inductive ChildOutcome where
  | execed
deriving DecidableEq

/-- The child branch of `os_exec_process` (os.cpp:93-111): redirect the
three standard streams, build argv, exec; every failure panics inside the
child, and no path falls through back to caller code. -/
def os_exec_child (o : ChildOracle) : Except String ChildOutcome :=
  if !o.dupStdinOk then .error "dup2 failed"
  else if !o.dupStdoutOk then .error "dup2 failed"
  else if !o.dupStderrOk then .error "dup2 failed"
  else if !o.execOk then .error "execvp failed"
  else .ok .execed

/-- Syscall events of `os_write_file`. -/
inductive FileEv where
  | opened (path : List Char)
  | wrote (n : Nat)
  | closedFile
deriving DecidableEq

/-- Environment behaviour of the primitives called by `os_write_file`
(os.cpp:126-135): whether `open` succeeds, the byte count the single
`write` call reports, and whether `close` succeeds. -/
structure WriteOracle where
  openOk : Bool
  written : Nat
  closeOk : Bool
deriving DecidableEq

/-- `S_IRWXU`: owner read/write/execute permission bits, octal 0700. -/
def S_IRWXU : Nat := 448

/-- `os_write_file` (os.cpp:126-135) over a filesystem modelled as an
association list from paths to (contents, permission bits); a fresh entry
at the front shadows (truncates) any previous content of the path.
`open(..., O_CREAT|O_CLOEXEC|O_WRONLY|O_TRUNC, S_IRWXU)` failing, the
single `write` reporting any count other than the full buffer length, or
`close` failing, all panic. -/
def os_write_file (o : WriteOracle) (fs : List (List Char × (List Nat × Nat)))
    (path : List Char) (contents : List Nat) :
    Except String (List (List Char × (List Nat × Nat)) × List FileEv) :=
  if !o.openOk then .error "open failed"
  else if o.written ≠ contents.length then .error "write failed"
  else if !o.closeOk then .error "close failed"
  else .ok ((path, (contents, S_IRWXU)) :: fs,
    [.opened path, .wrote contents.length, .closedFile])

/-- Reading a path back from the modelled filesystem: first entry wins. -/
def fsLookup (fs : List (List Char × (List Nat × Nat))) (p : List Char) :
    Option (List Nat × Nat) :=
  match fs with
  | [] => none
  | (q, v) :: rest => if q = p then some v else fsLookup rest p

/-- Phase of the parent in `os_exec_process`: blocked in `waitpid`
(os.cpp:118), draining the stdout pipe (os.cpp:120), or returned. -/
inductive PPhase where
  | waiting
  | draining
  | done
deriving DecidableEq

/-- Joint state of the parent, the child, and the stdout pipe while
`os_exec_process` runs: bytes the child still wants to write to stdout,
whether the child has exited, bytes sitting in the pipe, and the parent's
phase.  Modelled from the spec (section 4.2 design note): a pipe holds at
most its capacity, a writer blocks when the pipe is full, `waitpid`
blocks until the child exits. -/
structure RunSys where
  childRem : Nat
  childExited : Bool
  pipeBytes : Nat
  phase : PPhase
deriving DecidableEq

/-- One scheduler step of the parent/child/pipe system, `none` when no
party can make progress: the child writes as much as fits into the pipe,
the child exits once it has written everything, the parent's `waitpid`
returns only after the child exits, and only then does the parent drain
the pipe (the os.cpp:118-121 order: wait first, read after). -/
def runStep (cap : Nat) (s : RunSys) : Option RunSys :=
  if s.childExited = false ∧ 0 < s.childRem ∧ s.pipeBytes < cap then
    some { s with
      childRem := s.childRem - min (cap - s.pipeBytes) s.childRem,
      pipeBytes := s.pipeBytes + min (cap - s.pipeBytes) s.childRem }
  else if s.childExited = false ∧ s.childRem = 0 then
    some { s with childExited := true }
  else if s.phase = .waiting ∧ s.childExited = true then
    some { s with phase := .draining }
  else if s.phase = .draining ∧ 0 < s.pipeBytes then
    some { s with pipeBytes := 0 }
  else if s.phase = .draining ∧ s.pipeBytes = 0 ∧ s.childExited = true then
    some { s with phase := .done }
  else none

/-- Iterate `runStep` until no step is enabled or the fuel runs out. -/
def runMany (cap : Nat) : Nat → RunSys → RunSys
  | 0, s => s
  | fuel + 1, s =>
    match runStep cap s with
    | none => s
    | some s2 => runMany cap fuel s2

lemma bufResize_length (l : List Nat) (n : Nat) : (bufResize l n).length = n := by
  simp only [bufResize, List.length_append, List.length_take,
    List.length_replicate]
  omega

lemma bufResize_replicate (m n : Nat) :
    bufResize (List.replicate m 0) n = List.replicate n 0 := by
  unfold bufResize
  rw [List.take_replicate, List.length_replicate, ← List.replicate_add]
  congr 1
  omega

lemma bufResize_nil (n : Nat) : bufResize [] n = List.replicate n 0 := by
  rw [← List.replicate_zero (a := (0 : Nat)), bufResize_replicate]

lemma bufResize_cons (b : Nat) (l : List Nat) (n : Nat) :
    bufResize (b :: l) (n + 1) = b :: bufResize l n := by
  unfold bufResize
  rw [List.take_succ_cons]
  simp only [List.cons_append, List.length_cons]
  have h : n + 1 - (l.length + 1) = n - l.length := by omega
  rw [h]

lemma readAllFd_cons (c : List Nat) (rest : List (List Nat)) (buf : List Nat)
    (actual : Nat) (h : c.length ≠ 0) :
    readAllFdChunks (c :: rest) buf actual =
      readAllFdChunks rest (drainIter buf actual c).1
        (drainIter buf actual c).2 := by
  rw [readAllFdChunks, if_neg h]

/-- Concrete run of `read_all_fd` on two successive one-byte reads: the
second read lands at buffer offset 0 and overwrites the first byte, and
the final resize to `actual_buf_len = 2` exposes one never-written byte. -/
lemma read_all_fd_two_reads : read_all_fd [[65], [66]] = [66, 0] := by
  show readAllFdChunks [[65], [66]] (bufResize [] 8192) 0 = [66, 0]
  rw [bufResize_nil]
  rw [readAllFd_cons _ _ _ _ (by decide)]
  simp only [drainIter, List.length_cons, List.length_nil,
    List.singleton_append, List.drop_one, List.tail_cons, List.drop_replicate]
  norm_num
  rw [show List.replicate (8192 - 1) 0 = List.replicate 8191 0 from rfl]
  rw [show (8193 : Nat) = 8192 + 1 from rfl, bufResize_cons, bufResize_replicate]
  rw [readAllFd_cons _ _ _ _ (by decide)]
  simp only [drainIter, List.length_cons, List.length_nil,
    List.singleton_append, List.drop_one, List.tail_cons]
  norm_num
  rw [show (8194 : Nat) = 8193 + 1 from rfl, bufResize_cons, bufResize_replicate]
  rw [readAllFdChunks]
  rw [show (2 : Nat) = 1 + 1 from rfl, bufResize_cons, bufResize_replicate]
  rfl

lemma read_all_fd_nil : read_all_fd [] = [] := by
  show readAllFdChunks [] (bufResize [] 8192) 0 = []
  rw [readAllFdChunks, bufResize_nil, bufResize_replicate]
  rfl

lemma take_cons_drop (p : List Char) (i : Nat) (c : Char)
    (h : p.get? i = some c) : p.take i ++ c :: p.drop (i + 1) = p := by
  induction p generalizing i with
  | nil => simp at h
  | cons a t ih =>
    cases i with
    | zero =>
      simp only [List.get?] at h
      injection h with h
      simp [h]
    | succ j =>
      simp only [List.get?] at h
      simp only [List.take_succ_cons, List.drop_succ_cons, List.cons_append]
      rw [ih j h]

lemma findLastSep_sound (p : List Char) (k : Nat) (i : Nat)
    (h : findLastSep p k = some i) : p.get? i = some '/' ∧ i ≤ k := by
  induction k with
  | zero =>
    unfold findLastSep at h
    by_cases hc : p.get? 0 = some '/'
    · rw [if_pos hc] at h
      injection h with h
      subst h
      exact ⟨hc, Nat.le_refl 0⟩
    · rw [if_neg hc] at h
      exact absurd h (by simp)
  | succ j ih =>
    unfold findLastSep at h
    by_cases hc : p.get? (j + 1) = some '/'
    · rw [if_pos hc] at h
      injection h with h
      subst h
      exact ⟨hc, Nat.le_refl _⟩
    · rw [if_neg hc] at h
      obtain ⟨h1, h2⟩ := ih h
      exact ⟨h1, Nat.le_succ_of_le h2⟩

lemma findLastSep_complete (p : List Char) (k : Nat) (j : Nat)
    (hj : j ≤ k) (hc : p.get? j = some '/') : (findLastSep p k).isSome := by
  induction k with
  | zero =>
    interval_cases j
    unfold findLastSep
    rw [if_pos hc]
    rfl
  | succ m ih =>
    unfold findLastSep
    by_cases hk : p.get? (m + 1) = some '/'
    · rw [if_pos hk]; rfl
    · rw [if_neg hk]
      have hjm : j ≤ m := by
        rcases Nat.eq_or_lt_of_le hj with h | h
        · exfalso; subst h; exact hk hc
        · omega
      exact ih hjm

lemma sepScanStart_covers (p : List Char) (i : Nat) (hi : i + 1 < p.length)
    (hc : p.get? i = some '/') : ∃ k, sepScanStart p = some k ∧ i ≤ k := by
  unfold sepScanStart
  rw [if_neg (by omega : ¬p.length = 0)]
  by_cases hlast : p.get? (p.length - 1) = some '/'
  · rw [if_pos hlast, if_neg (by omega : ¬p.length - 1 = 0)]
    exact ⟨p.length - 2, rfl, by omega⟩
  · rw [if_neg hlast]
    have : i ≠ p.length - 1 := fun h => hlast (h ▸ hc)
    exact ⟨p.length - 1, rfl, by omega⟩

lemma os_path_split_rejoin (p : List Char) (i : Nat)
    (hi : i + 1 < p.length) (hc : p.get? i = some '/') :
    (os_path_split p).1 ++ '/' :: (os_path_split p).2 = p := by
  obtain ⟨k, hk, hik⟩ := sepScanStart_covers p i hi hc
  have hfind : (findLastSep p k).isSome := findLastSep_complete p k i hik hc
  obtain ⟨j, hj⟩ := Option.isSome_iff_exists.mp hfind
  obtain ⟨hjc, _⟩ := findLastSep_sound p k j hj
  simp only [os_path_split, hk, hj]
  exact take_cons_drop p j '/' hjc

lemma os_path_split_trailing_only (p : List Char)
    (hne : p.length ≠ 0)
    (hlast : p.get? (p.length - 1) = some '/')
    (honly : ∀ j, j + 1 < p.length → p.get? j ≠ some '/') :
    os_path_split p = (['.'], p) := by
  have hsep : sepScanStart p =
      if p.length - 1 = 0 then none else some (p.length - 2) := by
    unfold sepScanStart
    rw [if_neg hne, if_pos hlast]
  by_cases h0 : p.length - 1 = 0
  · rw [if_pos h0] at hsep
    simp only [os_path_split, hsep]
  · rw [if_neg h0] at hsep
    cases hf : findLastSep p (p.length - 2) with
    | none => simp only [os_path_split, hsep, hf]
    | some j =>
      obtain ⟨hjc, hjk⟩ := findLastSep_sound p (p.length - 2) j hf
      exact absurd hjc (honly j (by omega))

lemma erase_skip (b a : Nat) (l : List Nat) (h : b ≠ a) :
    (b :: l).erase a = b :: l.erase a :=
  List.erase_cons_tail (by simpa using h)

lemma bufResize_of_le (l : List Nat) (n : Nat) (h : l.length ≤ n) :
    bufResize l n = l ++ List.replicate (n - l.length) 0 := by
  unfold bufResize
  rw [List.take_of_length_le h]

lemma bufResize_take (l : List Nat) (n : Nat) (h : n ≤ l.length) :
    bufResize l n = l.take n := by
  unfold bufResize
  rw [Nat.sub_eq_zero_of_le h]
  simp only [List.replicate_zero, List.append_nil]

lemma read_all_fd_single (c : List Nat) (h : c.length ≤ 8192) :
    read_all_fd [c] = c := by
  by_cases h0 : c.length = 0
  · have hc : c = [] := List.length_eq_zero.mp h0
    subst hc
    show readAllFdChunks [[]] (bufResize [] 8192) 0 = []
    rw [readAllFdChunks, if_pos (show ([] : List Nat).length = 0 from rfl)]
    rw [bufResize_nil, bufResize_replicate]
    rfl
  · show readAllFdChunks [c] (bufResize [] 8192) 0 = c
    rw [bufResize_nil, readAllFd_cons _ _ _ _ h0, readAllFdChunks]
    simp only [drainIter, List.drop_replicate]
    have hlen : (c ++ List.replicate (8192 - c.length) 0).length = 8192 := by
      simp only [List.length_append, List.length_replicate]
      omega
    rw [bufResize_of_le (c ++ List.replicate (8192 - c.length) 0)
      (0 + c.length + 8192) (by rw [hlen]; omega)]
    rw [bufResize_take _ _ (by
      simp only [List.length_append, List.length_replicate]
      omega)]
    rw [List.append_assoc]
    rw [show (0 + c.length) = c.length from Nat.zero_add _]
    rw [List.take_append_of_le_length (Nat.le_refl c.length), List.take_length]

/-- C1: the claim says the finalized buffer of `read_all_fd` is the
concatenation, in order, of all bytes read.  The code reads every chunk
into the START of the buffer, so on the valid read sequence `[65]` then
`[66]` the second read overwrites the first byte and the finalized
buffer is `[66, 0]`, not `[65, 66]` — the claim fails on the code
(`read_all_fd` contradicts its own bookkeeping: `actual_buf_len` counts
all bytes read but the data sits at offset 0). -/
theorem claim_C1_drain_not_concatenation :
    chunksValid 0 [[65], [66]] = true ∧
    read_all_fd [[65], [66]] = [66, 0] ∧
    read_all_fd [[65], [66]] ≠ [65] ++ [66] := by
  refine ⟨by decide, read_all_fd_two_reads, ?_⟩
  rw [read_all_fd_two_reads]
  decide

/-- C2 counterexample: the claim says `split "a/b/"` returns basename
`"b"` with the trailing separator excluded; the code computes the
basename length from the ORIGINAL buffer length (os.cpp:67), so the
basename is `"b/"`. -/
theorem claim_C2_counterexample :
    (os_path_split "a/b/".toList).2 ≠ "b".toList := by decide

/-- C2 amended: the spec's worked examples, with the third corrected to
what the code computes: `split "a/b/c" = ("a/b", "c")`,
`split "noslash" = (".", "noslash")`, and `split "a/b/" = ("a", "b/")` —
the trailing-separator skip affects only where the backward scan starts;
the basename extends to the original end and keeps the trailing
separator. -/
theorem claim_C2_amended :
    os_path_split "a/b/c".toList = ("a/b".toList, "c".toList) ∧
    os_path_split "noslash".toList = (".".toList, "noslash".toList) ∧
    os_path_split "a/b/".toList = ("a".toList, "b/".toList) := by decide

/-- C3 counterexample: the claim says no descriptor created by
`os_exec_process` outlives the call.  Starting from descriptor table
`[0, 1, 2]` with next free descriptor 3, the three pipes allocate
descriptors 3..8, the parent closes only 3, 6 and 8 (stdin read end,
stdout/stderr write ends), and 4 (stdin write end), 5 and 7
(stdout/stderr read ends) are still open when the call returns. -/
theorem claim_C3_counterexample :
    (os_exec_process_fds ⟨3, [0, 1, 2], []⟩).trace =
      [.mkpipe 3 4, .mkpipe 5 6, .mkpipe 7 8, .forked, .closed 3, .closed 6,
       .closed 8, .waited, .drained 5, .drained 7] ∧
    4 ∈ (os_exec_process_fds ⟨3, [0, 1, 2], []⟩).openFds ∧
    5 ∈ (os_exec_process_fds ⟨3, [0, 1, 2], []⟩).openFds ∧
    7 ∈ (os_exec_process_fds ⟨3, [0, 1, 2], []⟩).openFds := by decide

/-- C3 amended: `os_exec_process` closes, immediately after fork, the
three non-owned pipe ends (stdin read end, stdout write end, stderr
write end), but the parent-side ends (stdin write end, stdout and stderr
read ends) are never closed and remain open when the call returns: for
any fresh descriptor numbering, the final open set is the initial set
plus exactly those three descriptors. -/
theorem claim_C3_amended (n : Nat) (fds : List Nat) (tr : List PEv)
    (hfresh : ∀ f ∈ fds, f < n) :
    (os_exec_process_fds ⟨n, fds, tr⟩).openFds =
      fds ++ [n + 1, n + 2, n + 4] ∧
    (os_exec_process_fds ⟨n, fds, tr⟩).trace =
      tr ++ [.mkpipe n (n + 1), .mkpipe (n + 2) (n + 3),
        .mkpipe (n + 4) (n + 5), .forked, .closed n, .closed (n + 3),
        .closed (n + 5), .waited, .drained (n + 2), .drained (n + 4)] := by
  constructor
  · show ((((fds ++ [n, n + 1]) ++ [n + 2, n + 3]) ++ [n + 4, n + 5]).erase n
      |>.erase (n + 3) |>.erase (n + 5)) = fds ++ [n + 1, n + 2, n + 4]
    have h1 : ∀ m, n ≤ m → m ∉ fds := fun m hm hmem => by
      have := hfresh m hmem; omega
    rw [List.append_assoc, List.append_assoc]
    rw [List.erase_append_right _ (h1 n (Nat.le_refl n))]
    rw [List.erase_append_right _ (h1 (n + 3) (by omega))]
    rw [List.erase_append_right _ (h1 (n + 5) (by omega))]
    congr 1
    simp only [List.cons_append, List.nil_append]
    have e1 : ([n, n + 1, n + 2, n + 3, n + 4, n + 5] : List Nat).erase n =
        [n + 1, n + 2, n + 3, n + 4, n + 5] := List.erase_cons_head n _
    have e2 : ([n + 1, n + 2, n + 3, n + 4, n + 5] : List Nat).erase (n + 3) =
        [n + 1, n + 2, n + 4, n + 5] := by
      rw [erase_skip _ _ _ (by omega), erase_skip _ _ _ (by omega),
        List.erase_cons_head]
    have e3 : ([n + 1, n + 2, n + 4, n + 5] : List Nat).erase (n + 5) =
        [n + 1, n + 2, n + 4] := by
      rw [erase_skip _ _ _ (by omega), erase_skip _ _ _ (by omega),
        erase_skip _ _ _ (by omega), List.erase_cons_head]
    rw [e1, e2, e3]
  · simp [os_exec_process_fds, sysPipe, sysFork, sysClose, sysWait, sysDrain]

/-- Witness for C3 amended at a concrete initial descriptor table. -/
theorem claim_C3_witness :
    (os_exec_process_fds ⟨10, [0, 1, 2], []⟩).openFds =
      [0, 1, 2] ++ [10 + 1, 10 + 2, 10 + 4] ∧
    (os_exec_process_fds ⟨10, [0, 1, 2], []⟩).trace =
      [] ++ [.mkpipe 10 (10 + 1), .mkpipe (10 + 2) (10 + 3),
        .mkpipe (10 + 4) (10 + 5), .forked, .closed 10, .closed (10 + 3),
        .closed (10 + 5), .waited, .drained (10 + 2), .drained (10 + 4)] :=
  claim_C3_amended 10 [0, 1, 2] [] (by decide)

/-- C4 counterexample: for `P = "a/b/"` — which contains a separator and
has a single trailing separator — the claim says the rejoined
`dirname ++ "/" ++ basename` is `"a/b"` (P with the trailing separator
dropped); the code rejoins to `"a/b/"`, exactly P, because the basename
keeps the trailing separator. -/
theorem claim_C4_counterexample :
    ('/' ∈ "a/b/".toList) ∧
    (os_path_split "a/b/".toList).1 ++ '/' :: (os_path_split "a/b/".toList).2
      = "a/b/".toList ∧
    (os_path_split "a/b/".toList).1 ++ '/' :: (os_path_split "a/b/".toList).2
      ≠ "a/b".toList := by decide

/-- C4 amended: for every path with a separator at some index other than
the last position, `split` followed by rejoining
dirname ++ separator :: basename yields the path EXACTLY, trailing
separator included; a path whose only separator is a single trailing one
falls to the no-separator fallback `(".", p)` instead. -/
theorem claim_C4_amended :
    (∀ (p : List Char) (i : Nat), i + 1 < p.length → p.get? i = some '/' →
      (os_path_split p).1 ++ '/' :: (os_path_split p).2 = p) ∧
    (∀ p : List Char, p.length ≠ 0 → p.get? (p.length - 1) = some '/' →
      (∀ j, j + 1 < p.length → p.get? j ≠ some '/') →
      os_path_split p = (['.'], p)) :=
  ⟨os_path_split_rejoin, os_path_split_trailing_only⟩

/-- Witness for C4 amended: rejoin on `"a/b"`, fallback on `"a/"`. -/
theorem claim_C4_witness :
    (os_path_split "a/b".toList).1 ++ '/' :: (os_path_split "a/b".toList).2
      = "a/b".toList ∧
    os_path_split "a/".toList = (['.'], "a/".toList) :=
  ⟨claim_C4_amended.1 "a/b".toList 1 (by decide) (by decide),
   claim_C4_amended.2 "a/".toList (by decide) (by decide)
     (by
       intro j hj
       have hl : ("a/".toList).length = 2 := by decide
       rw [hl] at hj
       have hj0 : j = 0 := by omega
       subst hj0
       decide)⟩

/-- C5: the draining primitive starts from the fixed initial chunk size
8192, every loop iteration re-establishes capacity = data-read + 8192,
and whenever a read fills the whole buffer and the loop continues, the
new capacity is exactly double the old one (the increment equals the old
capacity, not a constant). -/
theorem claim_C5_geometric_growth :
    (bufResize [] 8192).length = 8192 ∧
    (∀ buf actual chunk, ((drainIter buf actual chunk).1).length =
      (drainIter buf actual chunk).2 + 8192) ∧
    (∀ buf actual chunk, buf.length = actual + 8192 →
      chunk.length = buf.length →
      ((drainIter buf actual chunk).1).length = 2 * buf.length) := by
  refine ⟨bufResize_length [] 8192, ?_, ?_⟩
  · intro buf actual chunk
    simp only [drainIter, bufResize_length]
  · intro buf actual chunk hinv hfull
    simp only [drainIter, bufResize_length]
    omega

/-- Witness for C5 at a concrete full-buffer read of 8192 bytes. -/
theorem claim_C5_witness :
    ((drainIter (List.replicate 8192 0) 0 (List.replicate 8192 1)).1).length
      = 2 * (List.replicate 8192 0).length :=
  claim_C5_geometric_growth.2.2 _ _ _
    (by rw [List.length_replicate])
    (by rw [List.length_replicate, List.length_replicate])

/-- C6 counterexample: a child that exits with code 1 after its stdout is
delivered in two reads `[65]` then `[66]`.  `os_exec_process` returns
the raw wait status 256 — but the stdout buffer returned is `[66, 0]`,
not the partial output `[65, 66]` the child produced, so "together with
any partial output the child produced" fails on the code. -/
theorem claim_C6_counterexample :
    os_exec_process allOkOracle ⟨1, [[65], [66]], []⟩ =
      .ok ⟨256, [66, 0], []⟩ ∧
    ([66, 0] : List Nat) ≠ [65] ++ [66] := by
  constructor
  · calc os_exec_process allOkOracle ⟨1, [[65], [66]], []⟩
        = .ok ⟨waitStatus 1, read_all_fd [[65], [66]], read_all_fd []⟩ := rfl
      _ = .ok ⟨256, [66, 0], []⟩ := by
          rw [read_all_fd_two_reads, read_all_fd_nil]
          rfl
  · decide

/-- C6 amended: `os_exec_process` waits for the child (the `waitpid`
event precedes both drain events in the parent trace) and stores the raw
OS wait-status encoding `256 * c` for a child exiting normally with code
`c < 256`, from which the standard decoding recovers exactly `c`; the
drained buffers are returned regardless of the exit status being
nonzero, and they equal the child's output whenever each stream is
delivered in a single read of at most 8192 bytes. -/
theorem claim_C6_amended :
    (∀ (c : Nat) (out err : List Nat), c < 256 →
      out.length ≤ 8192 → err.length ≤ 8192 →
      os_exec_process allOkOracle ⟨c, [out], [err]⟩ =
        .ok ⟨256 * c, out, err⟩ ∧ wexitstatus (256 * c) = c) ∧
    ((os_exec_process_fds ⟨3, [0, 1, 2], []⟩).trace.indexOf PEv.waited <
       (os_exec_process_fds ⟨3, [0, 1, 2], []⟩).trace.indexOf (.drained 5) ∧
     (os_exec_process_fds ⟨3, [0, 1, 2], []⟩).trace.indexOf PEv.waited <
       (os_exec_process_fds ⟨3, [0, 1, 2], []⟩).trace.indexOf (.drained 7)) := by
  constructor
  · intro c out err hc hout herr
    constructor
    · calc os_exec_process allOkOracle ⟨c, [out], [err]⟩
          = .ok ⟨waitStatus c, read_all_fd [out], read_all_fd [err]⟩ := rfl
        _ = .ok ⟨256 * c, out, err⟩ := by
            rw [read_all_fd_single out hout, read_all_fd_single err herr,
              waitStatus, Nat.mod_eq_of_lt hc]
    · rw [wexitstatus, Nat.mul_div_cancel_left c (by norm_num : 0 < 256),
        Nat.mod_eq_of_lt hc]
  · decide

/-- Witness for C6 amended: exit code 7, one-byte stdout and stderr. -/
theorem claim_C6_witness :
    os_exec_process allOkOracle ⟨7, [[65]], [[66]]⟩ =
      .ok ⟨256 * 7, [65], [66]⟩ ∧
    wexitstatus (256 * 7) = 7 :=
  claim_C6_amended.1 7 [65] [66] (by decide) (by decide) (by decide)

/-- C7: when open succeeds, the single write reports the full buffer
length, and close succeeds, `os_write_file p B` replaces any previous
content of `p` with `B` under owner read/write/execute permissions
(0700), reading `p` back yields exactly `B`, the syscall trace contains
exactly one write event, and the descriptor is closed before return
(the trace ends with the close event). -/
theorem claim_C7_write_file_roundtrip (o : WriteOracle)
    (fs : List (List Char × (List Nat × Nat))) (p : List Char) (B : List Nat)
    (hopen : o.openOk = true) (hw : o.written = B.length)
    (hclose : o.closeOk = true) :
    os_write_file o fs p B =
      .ok ((p, (B, S_IRWXU)) :: fs,
        [.opened p, .wrote B.length, .closedFile]) ∧
    fsLookup ((p, (B, S_IRWXU)) :: fs) p = some (B, S_IRWXU) ∧
    ([FileEv.opened p, .wrote B.length, .closedFile].countP
      (fun e => match e with | .wrote _ => true | _ => false)) = 1 := by
  obtain ⟨o1, o2, o3⟩ := o
  simp only at hopen hw hclose
  subst hopen hw hclose
  refine ⟨?_, ?_, ?_⟩
  · simp [os_write_file]
  · unfold fsLookup
    rw [if_pos rfl]
  · rfl

/-- Witness for C7 over a filesystem where the path already has content
(showing truncation). -/
theorem claim_C7_witness :
    os_write_file ⟨true, 2, true⟩ [("f".toList, ([9], 448))] "f".toList
      [1, 2] =
      .ok (("f".toList, ([1, 2], S_IRWXU)) :: [("f".toList, ([9], 448))],
        [.opened "f".toList, .wrote 2, .closedFile]) ∧
    fsLookup (("f".toList, ([1, 2], S_IRWXU)) :: [("f".toList, ([9], 448))])
      "f".toList = some ([1, 2], S_IRWXU) ∧
    ([FileEv.opened "f".toList, .wrote 2, .closedFile].countP
      (fun e => match e with | .wrote _ => true | _ => false)) = 1 :=
  claim_C7_write_file_roundtrip ⟨true, 2, true⟩ [("f".toList, ([9], 448))]
    "f".toList [1, 2] rfl rfl rfl

/-- C8: every primitive failure is fatal: `os_exec_process` returns
normally only when all pipes and the fork succeeded, and panics
(`Except.error` models `zig_panic`) on a pipe or fork failure; the child
branch reaches a successful exec only when all three `dup2`
redirections and the exec succeeded, panics on each failing `dup2` and
on a failing exec, and has no outcome besides exec-succeeded or
panic-in-child — nothing falls back into caller code; `os_write_file`
returns normally only when open succeeded, the single write reported the
full length, and close succeeded, and a short write panics rather than
being retried or returned as an error value. -/
theorem claim_C8_failures_fatal :
    (∀ o b r, os_exec_process o b = .ok r →
      o.pipe1Ok = true ∧ o.pipe2Ok = true ∧ o.pipe3Ok = true ∧
        o.forkOk = true) ∧
    (∀ o b, o.pipe1Ok = false → os_exec_process o b = .error "pipe failed") ∧
    (∀ o b, o.pipe1Ok = true → o.pipe2Ok = true → o.pipe3Ok = true →
      o.forkOk = false → os_exec_process o b = .error "fork failed") ∧
    (∀ co r, os_exec_child co = .ok r →
      co.dupStdinOk = true ∧ co.dupStdoutOk = true ∧ co.dupStderrOk = true ∧
        co.execOk = true) ∧
    (∀ co, os_exec_child co = .ok .execed ∨
      ∃ m, os_exec_child co = .error m) ∧
    (∀ co, co.dupStdinOk = false → os_exec_child co = .error "dup2 failed") ∧
    (∀ co, co.dupStdinOk = true → co.dupStdoutOk = false →
      os_exec_child co = .error "dup2 failed") ∧
    (∀ co, co.dupStdinOk = true → co.dupStdoutOk = true →
      co.dupStderrOk = false → os_exec_child co = .error "dup2 failed") ∧
    (∀ co, co.execOk = false → ∃ m, os_exec_child co = .error m) ∧
    (∀ o fs p B x, os_write_file o fs p B = .ok x →
      o.openOk = true ∧ o.written = B.length ∧ o.closeOk = true) ∧
    (∀ o fs p (B : List Nat), o.openOk = true → o.written ≠ B.length →
      os_write_file o fs p B = .error "write failed") := by
  refine ⟨?_, ?_, ?_, ?_, ?_, ?_, ?_, ?_, ?_, ?_, ?_⟩
  · intro o b r h
    obtain ⟨p1, p2, p3, f⟩ := o
    cases p1 <;> cases p2 <;> cases p3 <;> cases f <;>
      simp_all [os_exec_process]
  · intro o b h
    obtain ⟨p1, p2, p3, f⟩ := o
    simp only at h
    subst h
    simp [os_exec_process]
  · intro o b h1 h2 h3 h4
    obtain ⟨p1, p2, p3, f⟩ := o
    simp only at h1 h2 h3 h4
    subst h1 h2 h3 h4
    simp [os_exec_process]
  · intro co r h
    obtain ⟨a, b, c, d⟩ := co
    cases a <;> cases b <;> cases c <;> cases d <;>
      simp_all [os_exec_child]
  · intro co
    obtain ⟨a, b, c, d⟩ := co
    cases a <;> cases b <;> cases c <;> cases d <;>
      first
        | exact Or.inl rfl
        | exact Or.inr ⟨_, rfl⟩
  · intro co h
    obtain ⟨a, b, c, d⟩ := co
    simp only at h
    subst h
    simp [os_exec_child]
  · intro co h1 h2
    obtain ⟨a, b, c, d⟩ := co
    simp only at h1 h2
    subst h1 h2
    simp [os_exec_child]
  · intro co h1 h2 h3
    obtain ⟨a, b, c, d⟩ := co
    simp only at h1 h2 h3
    subst h1 h2 h3
    simp [os_exec_child]
  · intro co h
    obtain ⟨a, b, c, d⟩ := co
    simp only at h
    subst h
    cases a <;> cases b <;> cases c <;> exact ⟨_, rfl⟩
  · intro o fs p B x h
    obtain ⟨o1, o2, o3⟩ := o
    cases o1 <;> cases o3 <;>
      by_cases hw : o2 = B.length <;> simp_all [os_write_file]
  · intro o fs p B h1 h2
    obtain ⟨o1, o2, o3⟩ := o
    simp only at h1 h2
    subst h1
    unfold os_write_file
    rw [if_neg (by simp), if_pos h2]

/-- Witness for C8: a failing pipe, a failing stdin redirection, a
failing exec, and a short write. -/
theorem claim_C8_witness :
    os_exec_process ⟨false, true, true, true⟩ ⟨0, [], []⟩ =
      .error "pipe failed" ∧
    os_exec_child ⟨false, true, true, true⟩ = .error "dup2 failed" ∧
    (∃ m, os_exec_child ⟨true, true, true, false⟩ = .error m) ∧
    os_write_file ⟨true, 1, true⟩ [] [] [] = .error "write failed" :=
  ⟨claim_C8_failures_fatal.2.1 ⟨false, true, true, true⟩ ⟨0, [], []⟩ rfl,
   claim_C8_failures_fatal.2.2.2.2.2.1 ⟨false, true, true, true⟩ rfl,
   claim_C8_failures_fatal.2.2.2.2.2.2.2.2.1 ⟨true, true, true, false⟩ rfl,
   claim_C8_failures_fatal.2.2.2.2.2.2.2.2.2.2 ⟨true, 1, true⟩ [] [] [] rfl
     (by decide)⟩

/-- C9: the claim says a child writing more than a pipe buffer of stdout
does not deadlock the runner.  With pipe capacity 65536 and a child
writing 65537 bytes, the system reaches the state where the pipe is full,
the child still has bytes to write, and the parent is blocked in
`waitpid`; no step is enabled (`runStep` returns `none`) and the parent
has not returned — the wait-then-drain order of os.cpp:118-121
deadlocks.  A child writing at most the pipe capacity completes. -/
theorem claim_C9_sequential_drain_deadlocks :
    runMany 65536 10 ⟨65537, false, 0, .waiting⟩ =
      ⟨1, false, 65536, .waiting⟩ ∧
    runStep 65536 ⟨1, false, 65536, .waiting⟩ = none ∧
    (⟨1, false, 65536, .waiting⟩ : RunSys).phase ≠ .done ∧
    (runMany 65536 10 ⟨65536, false, 0, .waiting⟩).phase = .done := by decide

/-- C10: `os_path_split` is total, and on the edge cases the spec leaves
implementation-defined it applies the no-separator fallback: the empty
input yields `(".", "")` and the all-separator input `"/"` yields
`(".", "/")`, the basename an exact copy of the input. -/
theorem claim_C10_split_total_edge_cases :
    (∀ p : List Char, ∃ d b, os_path_split p = (d, b)) ∧
    os_path_split "".toList = (".".toList, "".toList) ∧
    os_path_split "/".toList = (".".toList, "/".toList) := by
  refine ⟨fun p => ⟨(os_path_split p).1, (os_path_split p).2, ?_⟩,
    by decide, by decide⟩
  exact Prod.mk.eta.symm

end ZigOs
